import Mathlib

/-!
Verification of the repository-indexing pipeline of `main.go` (termux-apt-repo).

The program is shallowly embedded: the pure path/string logic of the Go
standard-library functions the program calls (`filepath.Clean`, `filepath.Join`,
`filepath.Dir`, `filepath.Base`, `strings.TrimPrefix`, `strings.Split`,
regexp captures of the form `Key: (.*)`) is translated to executable Lean
functions over `List Char`, and the effectful parts (`addDeb`, the component
registration loop of `main`, the `Packages` entry generator, the `Release`
header and hash-row writers, the final signing step) become functions from an
explicit environment describing the outcome of each filesystem or subprocess
operation to an explicit result (termination mode plus the effects performed).
-/

namespace AptRepo

/-! ## Go standard library path and string functions (Unix separator) -/

/-- `strings.Split`-style splitting of a character list on a separator. -/
def splitOnCharAux (sep : Char) : List Char → List Char → List (List Char)
  | [], acc => [acc.reverse]
  | c :: cs, acc =>
    if c = sep then acc.reverse :: splitOnCharAux sep cs []
    else splitOnCharAux sep cs (c :: acc)

/-- Split a character list on a separator character (`strings.Split`). -/
def splitOnChar (sep : Char) (s : List Char) : List (List Char) :=
  splitOnCharAux sep s []

/-- One step of `filepath.Clean`'s component processing: skip empty and `.`
components, let `..` pop a previous component (or vanish at the root /
accumulate when the path is relative), and push everything else.  The stack is
kept most-recent-first. -/
def cleanPush (rooted : Bool) (stack : List (List Char)) (comp : List Char) :
    List (List Char) :=
  if comp = [] ∨ comp = ['.'] then stack
  else if comp = ['.', '.'] then
    match stack with
    | [] => if rooted then [] else [['.', '.']]
    | top :: rest => if top = ['.', '.'] then comp :: top :: rest else rest
  else comp :: stack

/-- Join path components with `/` separators. -/
def joinWithSlash : List (List Char) → List Char
  | [] => []
  | [x] => x
  | x :: y :: xs => x ++ '/' :: joinWithSlash (y :: xs)

/-- Go `path/filepath.Clean` on a Unix path, as the standard lexical
algorithm: collapse repeated separators, drop `.` components, resolve `..`
against preceding components (dropping `..` at the root), and return `.` for
an empty result. -/
def goCleanL (s : List Char) : List Char :=
  let rooted : Bool := match s with | [] => false | c :: _ => c = '/'
  let stack := (splitOnChar '/' s).foldl (cleanPush rooted) []
  let out := (if rooted then ['/'] else []) ++ joinWithSlash stack.reverse
  if out = [] then ['.'] else out

/-- Go `filepath.Clean` on `String`. -/
def goClean (s : String) : String := String.mk (goCleanL s.data)

/-- The prefix of `s` up to and including its last `/` (empty when `s` has no
separator); this is the `dir` half of Go `filepath.Split`. -/
def dirPartL (s : List Char) : List Char :=
  (s.reverse.dropWhile (fun c => c ≠ '/')).reverse

/-- Go `filepath.Dir`: the `dir` half of `Split`, cleaned.  A path without a
separator gives `.`; `/name` gives `/`. -/
def goDirL (s : List Char) : List Char := goCleanL (dirPartL s)

/-- Go `filepath.Dir` on `String`. -/
def goDir (s : String) : String := String.mk (goDirL s.data)

/-- Go `filepath.Base`: empty path gives `.`, a path of only separators gives
`/`, otherwise the last element after trailing separators are removed. -/
def goBaseL (s : List Char) : List Char :=
  if s = [] then ['.']
  else
    let t := (s.reverse.dropWhile (fun c => c = '/')).reverse
    if t = [] then ['/']
    else (t.reverse.takeWhile (fun c => c ≠ '/')).reverse

/-- Go `filepath.Base` on `String`. -/
def goBase (s : String) : String := String.mk (goBaseL s.data)

/-- Whether `key` is an initial segment of `s`. -/
def hasPrefL : List Char → List Char → Bool
  | [], _ => true
  | _ :: _, [] => false
  | k :: ks, c :: cs => if k = c then hasPrefL ks cs else false

/-- Go `strings.TrimPrefix s pre`: drop `pre` from the front of `s` when it is
an initial segment, otherwise return `s` unchanged. -/
def trimPreL (pre s : List Char) : List Char :=
  if hasPrefL pre s then s.drop pre.length else s

/-- Go `strings.TrimPrefix` on `String` (argument order as in Go: the string,
then the leading piece to remove). -/
def trimPreS (s pre : String) : String := String.mk (trimPreL pre.data s.data)

/-- Go `filepath.Join`: join the non-empty elements with `/` and `Clean` the
result (Go joins from the first non-empty element on; dropping interior empty
elements instead is equivalent because `Clean` collapses empty segments). -/
def goJoin (elems : List String) : String :=
  let ne := elems.filter (fun e => e ≠ "")
  if ne = [] then "" else goClean (String.intercalate "/" ne)

/-- The submatch of the Go regular expression `key(.*)` at its leftmost match
in `text`, as used by `regexp.MustCompile("Package: (.*)").FindStringSubmatch`:
find the first occurrence of the literal `key` and capture greedily up to the
next newline or the end of the text; `none` when `key` does not occur. -/
def findCaptureL (key : List Char) : List Char → Option (List Char)
  | [] => if hasPrefL key [] then some [] else none
  | c :: cs =>
    if hasPrefL key (c :: cs) then
      some ((List.drop key.length (c :: cs)).takeWhile (fun ch => ch ≠ '\n'))
    else findCaptureL key cs

/-- `findCaptureL` on `String`. -/
def findCapture (key text : String) : Option String :=
  (findCaptureL key.data text.data).map String.mk

/-- The `contains` helper of `main.go` (linear scan for string membership). -/
def contains : List String → String → Bool
  | [], _ => false
  | v :: rest, item => if v = item then true else contains rest item

/-- `supportedArches` of `main.go`. -/
def supportedArches : List String := ["all", "arm", "aarch64"]

/-- `hashes` of `main.go`: the configured digest algorithms, in emission
order. -/
def hashes : List String := ["md5", "sha1", "sha256", "sha512"]

/-- The component derivation of `main.go` lines 220-223:
`component := filepath.Dir(strings.TrimPrefix(debPath, inputPath))`, with the
configured default component substituted when the result is `.`. -/
def deriveComponent (inputPath defaultComponent debPath : String) : String :=
  let component := goDir (trimPreS debPath inputPath)
  if component = "." then defaultComponent else component

/-! ## Tree building (`addDeb`, `main.go` lines 113-156)

The filesystem and subprocess operations of one `addDeb` call are abstracted
into an environment recording each operation's outcome; `addDeb` becomes a
function from that environment to a termination mode plus the effects it
performed before terminating. -/

/-- Outcomes of the filesystem / subprocess operations one `addDeb` call can
perform.  Field order follows the order the operations occur in the source:
`controlText` is the text produced by `controlFileContents` (`none` when any
of its three fatal paths fires: `ar t` fails, no `control.tar.gz`/`.xz`
member, or extraction fails — each prints an error naming the file and calls
`os.Exit(1)`); `archDirExists` is the `os.Stat` probe of the target
directory; `mkdirOk` is the (discarded) `os.MkdirAll` outcome; `linkOk` the
(discarded) `os.Link` outcome; `copyOk` the `copyFile` outcome;
`openContentsOk` the `os.OpenFile` outcome for `Contents-<arch>`; and
`dataTarOutput` the raw `ar p ... | tar -tJ` output used by
`listPackageFiles` (`none` when that shell-out fails, which is fatal). -/
structure AddDebEnv where
  controlText : Option String
  archDirExists : Bool
  mkdirOk : Bool
  linkOk : Bool
  copyOk : Bool
  openContentsOk : Bool
  dataTarOutput : Option String
deriving DecidableEq, Repr

/-- How a modelled code path terminates: normally, via `os.Exit(1)` after
printing `msg` to stderr, or via the runtime panic raised by indexing `[1]`
into a `nil` `FindStringSubmatch` result (a Go panic terminates the process
with a non-zero status and a stack trace, with no program-written message). -/
inductive ProcOutcome where
  | ok
  | exit1 (msg : String)
  | panicIdx
deriving DecidableEq, Repr

/-- Filesystem effects performed by one `addDeb` call: directories created,
package files materialized, and `(path, packageName)` rows appended to the
architecture's content index. -/
structure Effects where
  dirsCreated : List String
  filesWritten : List String
  contentsRows : List (String × String)
deriving DecidableEq, Repr

/-- No effects. -/
def emptyEffects : Effects := ⟨[], [], []⟩

/-- Result of one `addDeb` call. -/
structure AddDebResult where
  term : ProcOutcome
  eff : Effects
deriving DecidableEq, Repr

/-- `listPackageFiles` of `main.go` lines 98-111, applied to the raw output of
the `tar -tJ` shell-out: split on newlines, keep the non-empty lines that do
not end in `/` (directories), and strip a leading `./`. -/
def listPackageFiles (raw : String) : List String :=
  ((splitOnChar '\n' raw.data).filter
      (fun f => match f.getLast? with | some c => c != '/' | none => false)).map
    (fun f => String.mk (trimPreL ['.', '/'] f))

/-- The tail of `addDeb` (`main.go` lines 146-155): open `Contents-<arch>` in
append mode (fatal on failure), then list the materialized package's files
(fatal on failure of the shell-out) and append one `(path, packageName)` row
per regular file. -/
def contentsAppendStep (env : AddDebEnv) (pkgName debArch destinationDebFile : String)
    (dirs files : List String) : AddDebResult :=
  if env.openContentsOk then
    match env.dataTarOutput with
    | none =>
      ⟨ProcOutcome.exit1 ("Error listing package files for \x27" ++ destinationDebFile ++ "\x27"),
       ⟨dirs, files, []⟩⟩
    | some raw =>
      ⟨ProcOutcome.ok, ⟨dirs, files, (listPackageFiles raw).map (fun f => (f, pkgName))⟩⟩
  else
    ⟨ProcOutcome.exit1 ("Error opening contents file for \x27" ++ debArch ++ "\x27"),
     ⟨dirs, files, []⟩⟩

/-- `addDeb` of `main.go` lines 113-156.  Parse `Package:` and
`Architecture:` out of the control text (indexing the regexp submatch panics
when a field is missing); exit with a message naming the file when the
architecture is unsupported; create the target directory when the `os.Stat`
probe says it is missing (the `os.MkdirAll` error is discarded — the source
repeats this Stat/MkdirAll pair twice for the same path, which is a no-op the
second time); materialize the package by hard link (the `os.Link` error is
discarded) or by copy (fatal on failure); then append to the content index. -/
def addDeb (env : AddDebEnv) (distributionPath component debToAddPath : String)
    (useHardLinks : Bool) : AddDebResult :=
  match env.controlText with
  | none =>
    ⟨ProcOutcome.exit1 ("Error extracting control file from \x27" ++ debToAddPath ++ "\x27"),
     emptyEffects⟩
  | some ctrl =>
    match findCapture "Package: " ctrl with
    | none => ⟨ProcOutcome.panicIdx, emptyEffects⟩
    | some debToAddPkgName =>
      match findCapture "Architecture: " ctrl with
      | none => ⟨ProcOutcome.panicIdx, emptyEffects⟩
      | some debArch =>
        if contains supportedArches debArch then
          let archDirPath := goJoin [distributionPath, component, "binary-" ++ debArch]
          let dirsCreated := if !env.archDirExists && env.mkdirOk then [archDirPath] else []
          let destinationDebFile := goJoin [archDirPath, goBase debToAddPath]
          if useHardLinks then
            contentsAppendStep env debToAddPkgName debArch destinationDebFile dirsCreated
              (if env.linkOk then [destinationDebFile] else [])
          else
            if env.copyOk then
              contentsAppendStep env debToAddPkgName debArch destinationDebFile dirsCreated
                [destinationDebFile]
            else
              ⟨ProcOutcome.exit1 ("Error copying file \x27" ++ debToAddPath ++ "\x27"),
               ⟨dirsCreated, [], []⟩⟩
        else
          ⟨ProcOutcome.exit1
             ("Unsupported arch \x27" ++ debArch ++ "\x27 in \x27" ++ goBase debToAddPath ++ "\x27"),
           emptyEffects⟩

/-! ## Package index generation (`main.go` lines 248-283, `hashFile`,
`fileSize`) -/

/-- The operations the `Packages` generator performs on one `.deb` file in a
`binary-<arch>` directory: `controlText` is the `controlFileContents` outcome
(`none` = fatal exit inside it), `statSize` the `os.Stat` outcome used by
`fileSize` (`none` = stat error, for which `fileSize` returns `0`), `openOk`
the `os.Open` outcome inside `hashFile` (`false` = open error, for which
`hashFile` returns `nil`), and `content` the bytes hashed when the open
succeeds. -/
structure DebFileState where
  controlText : Option String
  statSize : Option Nat
  openOk : Bool
  content : List Nat
deriving DecidableEq, Repr

/-- `fileSize` of `main.go` lines 387-393: the stat size, or `0` when
`os.Stat` fails (the error is not reported). -/
def fileSize (f : DebFileState) : Nat := f.statSize.getD 0

/-- `hashFile` of `main.go` lines 365-385 composed with the `%x` formatting at
line 274, with the digest computation itself (external crypto) abstracted as
`digestHex`: when `os.Open` fails `hashFile` returns `nil` and `%x` of `nil`
prints the empty string. -/
def hashFileHex (digestHex : String → List Nat → String) (hashType : String)
    (f : DebFileState) : String :=
  if f.openOk then digestHex hashType f.content else ""

/-- Go `strings.ToUpper` restricted to its action on the ASCII algorithm
names involved: upper-case every character. -/
def asciiUpper (s : String) : String := String.mk (s.data.map Char.toUpper)

/-- The digest label of `main.go` lines 267-273 and 293-299: `MD5Sum` for
`md5`, the upper-cased algorithm name otherwise. -/
def hashLabel (hashType : String) : String :=
  if hashType = "md5" then "MD5Sum" else asciiUpper hashType

/-- One `Packages` entry (`main.go` lines 262-275): the control text followed
by `Filename` (path relative to the repository root), `Size`, and one digest
line per configured algorithm.  `none` means the process exited inside
`controlFileContents` before the entry was written. -/
def packagesEntry (digestHex : String → List Nat → String)
    (distribution component binaryPath debToReadPath : String)
    (f : DebFileState) : Option String :=
  f.controlText.map (fun ctrl =>
    ctrl ++ "\nFilename: "
      ++ goJoin ["dists", distribution, component, binaryPath, goBase debToReadPath]
      ++ "\nSize: " ++ toString (fileSize f)
      ++ String.join (hashes.map (fun h => "\n" ++ hashLabel h ++ ": " ++ hashFileHex digestHex h f)))

/-! ## Release manifest (`main.go` lines 233-246 and 290-318) -/

/-- Byte-wise string comparison used to model Go `sort.Strings` (the
architecture names involved are ASCII, where byte order and scalar order
coincide). -/
def charsLe : List Char → List Char → Bool
  | [], _ => true
  | _ :: _, [] => false
  | a :: as, b :: bs => if a < b then true else if b < a then false else charsLe as bs

/-- `charsLe` on `String`. -/
def strLe (a b : String) : Bool := charsLe a.data b.data

/-- Insertion into a sorted list of strings. -/
def insertSorted (s : String) : List String → List String
  | [] => [s]
  | x :: xs => if strLe s x then s :: x :: xs else x :: insertSorted s xs

/-- Insertion sort of strings (models `sort.Strings`). -/
def sortStrs : List String → List String
  | [] => []
  | x :: xs => insertSorted x (sortStrs xs)

/-- Keep the first occurrence of each string (models the key set of the
`encounteredArches` map under repeated `m[k] = true` insertions). -/
def dedupAux : List String → List String → List String
  | [], _ => []
  | x :: xs, seen =>
    if contains seen x then dedupAux xs seen else x :: dedupAux xs (seen ++ [x])

/-- `mapKeys` of `main.go` lines 340-347 applied to the `encounteredArches`
registry, with the registry itself modelled as the list of arches inserted
over the run: the distinct keys, sorted. -/
def mapKeys (inserted : List String) : List String := sortStrs (dedupAux inserted [])

/-- The `Release` header lines written at `main.go` lines 241-246, in order.
Line 241 writes the literal `"Codename: termux"`; the `distribution` variable
is used only for the `Description` and `Suite` lines. -/
def releaseHeader (distribution date : String) (encountered : List String) : List String :=
  ["Codename: termux",
   "Version: 1",
   "Architectures: " ++ String.intercalate " " (mapKeys encountered),
   "Description: " ++ distribution ++ " repository",
   "Suite: " ++ distribution,
   "Date: " ++ date]

/-- The paths of the per-algorithm digest rows of the `Release` manifest
(`main.go` lines 301-317), one component at a time, in emission order.  For
each `binary-<arch>` directory the `Packages` and `Packages.xz` rows carry
`filepath.Join(component, filepath.Base(archDirPath), f)`; for each
`Contents-*` glob match the row carries the glob match itself — the full
path `filepath.Join(distributionPath, component, "Contents-"++suffix)` —
printed verbatim.  `archesOf` models the `binary-*` glob (the arch suffixes
of the directories present) and `contentsOf` the `Contents-*` glob (the
suffixes present, e.g. `all` and `all.xz`). -/
def releaseHashRows (distributionPath : String) (components : List String)
    (archesOf : String → List String) (contentsOf : String → List String) : List String :=
  components.flatMap (fun comp =>
    (archesOf comp).flatMap (fun arch =>
      ["Packages", "Packages.xz"].map (fun f =>
        goJoin [comp, goBase (goJoin [distributionPath, comp, "binary-" ++ arch]), f]))
    ++ (contentsOf comp).map (fun suffix => goJoin [distributionPath, comp, "Contents-" ++ suffix]))

/-- The distribution-root-relative path of a component's content index, as
§4.4 of the specification describes the manifest rows ("path relative to the
distribution root").  Stated from the spec's words, for comparison with
`releaseHashRows`. -/
def specContentsRelPath (component suffix : String) : String :=
  goJoin [component, "Contents-" ++ suffix]

/-- The messages `main` prints from line 320 to the end: the signing step
(`exec.Command("gpg", ...).Run()` — the returned error is discarded and the
child's stderr is not connected to the user's, so `signerOk`, the gpg
outcome, influences nothing) followed by the closing usage hints. -/
def signAndFinish (signRepo signerOk : Bool) (distribution outputPath : String)
    (components : List String) : List String :=
  (if signRepo then ["Signing with gpg..."] else [])
  ++ ["Done!", "",
      "Make the " ++ outputPath ++ " directory accessible at $REPO_URL", "",
      "Users can then access the repo by adding a file at",
      "   $PREFIX/etc/apt/sources.list.d",
      "containing:"]
  ++ components.map (fun c => "   deb [trusted=yes] $REPO_URL " ++ distribution ++ " " ++ c)
  ++ ["",
      "[trusted=yes] is not needed if the repo has been signed with a gpg key"]

/-! ## The component registration loop of `main` (`main.go` lines 219-231) -/

/-- The driver state threaded through the package loop: the `COMPONENTS`
registry and the trace of components whose directory was handed to
`os.RemoveAll` (in order). -/
structure RunState where
  components : List String
  removedEvents : List String
deriving DecidableEq, Repr

/-- One iteration of the registration prefix of the loop body (`main.go`
lines 224-229): when the component is not yet in `COMPONENTS`, register it
and, if its directory exists on disk, remove that directory.  `existsDir` is
the `os.Stat` probe of the pre-run tree (a component directory can only have
been created by this run after its component was registered, so the probe at
first sight always sees pre-run state); the `os.RemoveAll` error is
discarded. -/
def seeComponent (existsDir : String → Bool) (distributionPath : String)
    (st : RunState) (component : String) : RunState :=
  if contains st.components component then st
  else
    { components := st.components ++ [component],
      removedEvents := st.removedEvents
        ++ (if existsDir (goJoin [distributionPath, component]) then [component] else []) }

/-- The registration prefix of the loop, folded over a list of discovered
package paths from a given driver state. -/
def runSeeFrom (existsDir : String → Bool) (distributionPath inputPath defaultComponent : String)
    (st : RunState) (paths : List String) : RunState :=
  paths.foldl
    (fun s p => seeComponent existsDir distributionPath s (deriveComponent inputPath defaultComponent p))
    st

/-- The registration prefix of the loop over a whole run (both registries
start empty). -/
def runSee (existsDir : String → Bool) (distributionPath inputPath defaultComponent : String)
    (paths : List String) : RunState :=
  runSeeFrom existsDir distributionPath inputPath defaultComponent ⟨[], []⟩ paths

/-- One full iteration of the loop body (`main.go` lines 219-230): the
registration prefix followed by the `addDeb` call.  The pair returned is the
driver state after the iteration and the `addDeb` result; when the `addDeb`
result is fatal the loop (and the process) stops with that state. -/
def processPackage (existsDir : String → Bool)
    (distributionPath inputPath defaultComponent : String) (useHardLinks : Bool)
    (env : AddDebEnv) (st : RunState) (debPath : String) : RunState × AddDebResult :=
  let component := deriveComponent inputPath defaultComponent debPath
  (seeComponent existsDir distributionPath st component,
   addDeb env distributionPath component debPath useHardLinks)

/-! ## Helper lemmas about the registration loop -/

/-- The `contains` scan decides list membership. -/
theorem contains_iff (l : List String) (x : String) : contains l x = true ↔ x ∈ l := by
  induction l with
  | nil => simp [contains]
  | cons v rest ih =>
    simp only [contains]
    by_cases h : v = x
    · subst h; simp
    · rw [if_neg h, ih]
      constructor
      · exact fun hr => List.mem_cons_of_mem _ hr
      · intro hm
        rcases List.mem_cons.mp hm with rfl | hr
        · exact absurd rfl h
        · exact hr

/-- Registering a component adds exactly it to the registry. -/
theorem mem_seeComponent (ed : String → Bool) (dp : String) (st : RunState) (c x : String) :
    x ∈ (seeComponent ed dp st c).components ↔ x ∈ st.components ∨ x = c := by
  unfold seeComponent
  by_cases h : contains st.components c = true
  · rw [if_pos h]
    have hc := (contains_iff _ _).mp h
    constructor
    · exact Or.inl
    · rintro (hx | rfl)
      · exact hx
      · exact hc
  · rw [if_neg h]
    simp [List.mem_append]

/-- The registration step preserves the loop invariant: the registry has no
duplicates, and the removal trace is exactly the registry filtered to the
components whose directory pre-existed. -/
theorem seeComponent_inv (ed : String → Bool) (dp : String) (st : RunState) (c : String)
    (h1 : st.components.Nodup)
    (h2 : st.removedEvents = st.components.filter (fun c0 => ed (goJoin [dp, c0]))) :
    (seeComponent ed dp st c).components.Nodup ∧
      (seeComponent ed dp st c).removedEvents =
        (seeComponent ed dp st c).components.filter (fun c0 => ed (goJoin [dp, c0])) := by
  unfold seeComponent
  by_cases h : contains st.components c = true
  · rw [if_pos h]
    exact ⟨h1, h2⟩
  · rw [if_neg h]
    have hc : c ∉ st.components := fun hm => h ((contains_iff _ _).mpr hm)
    constructor
    · exact List.Nodup.append h1 (List.nodup_singleton c)
        (by simpa [List.disjoint_singleton] using hc)
    · show st.removedEvents ++ _ = List.filter _ (st.components ++ [c])
      rw [h2, List.filter_append]
      cases hp : ed (goJoin [dp, c]) <;> simp [hp]

/-- The registration fold over no packages is the identity. -/
theorem runSeeFrom_nil (ed : String → Bool) (dp ip dc : String) (st : RunState) :
    runSeeFrom ed dp ip dc st [] = st := rfl

/-- Unfolding one step of the registration fold. -/
theorem runSeeFrom_cons (ed : String → Bool) (dp ip dc : String) (st : RunState)
    (p : String) (ps : List String) :
    runSeeFrom ed dp ip dc st (p :: ps)
      = runSeeFrom ed dp ip dc (seeComponent ed dp st (deriveComponent ip dc p)) ps := rfl

/-- The registration fold splits over list append. -/
theorem runSeeFrom_append (ed : String → Bool) (dp ip dc : String) (st : RunState)
    (xs ys : List String) :
    runSeeFrom ed dp ip dc st (xs ++ ys)
      = runSeeFrom ed dp ip dc (runSeeFrom ed dp ip dc st xs) ys := by
  simp [runSeeFrom, List.foldl_append]

/-- Membership in the registry after a fold: precisely the starting registry
plus the components the processed packages derive to. -/
theorem mem_runSeeFrom (ed : String → Bool) (dp ip dc : String) (paths : List String) :
    ∀ (st : RunState) (x : String),
      x ∈ (runSeeFrom ed dp ip dc st paths).components
        ↔ x ∈ st.components ∨ x ∈ paths.map (deriveComponent ip dc) := by
  induction paths with
  | nil => intro st x; simp [runSeeFrom]
  | cons p ps ih =>
    intro st x
    rw [runSeeFrom_cons, ih, mem_seeComponent]
    simp [List.mem_cons, or_assoc]

/-- The loop invariant holds after folding from any state satisfying it. -/
theorem runSeeFrom_inv (ed : String → Bool) (dp ip dc : String) (paths : List String) :
    ∀ st : RunState, st.components.Nodup →
      st.removedEvents = st.components.filter (fun c0 => ed (goJoin [dp, c0])) →
      (runSeeFrom ed dp ip dc st paths).components.Nodup ∧
        (runSeeFrom ed dp ip dc st paths).removedEvents =
          (runSeeFrom ed dp ip dc st paths).components.filter
            (fun c0 => ed (goJoin [dp, c0])) := by
  induction paths with
  | nil => intro st h1 h2; exact ⟨h1, h2⟩
  | cons p ps ih =>
    intro st h1 h2
    rw [runSeeFrom_cons]
    have step := seeComponent_inv ed dp st (deriveComponent ip dc p) h1 h2
    exact ih _ step.1 step.2

/-! ## Claims -/

/-- C1: evaluation of the component derivation (`main.go` lines 220-223) on a
root-level package of the input directory, for the same input directory given
with and without a trailing separator.  With the trailing separator the
package gets the configured default component, as the claim states; without
it, `strings.TrimPrefix` leaves a leading `/`, `filepath.Dir` returns `/`,
and the package is assigned the component `"/"` instead — so it is
materialized under `dists/<distribution>/binary-<arch>/` directly (the third
conjunct), and the "component directory" handed to `os.RemoveAll` on first
sight is the distribution root itself (the fourth conjunct). -/
theorem C1_root_component_depends_on_trailing_separator :
    deriveComponent "/in/" "extras" (goJoin ["/in", "foo_1.0_all.deb"]) = "extras"
    ∧ deriveComponent "/in" "extras" (goJoin ["/in", "foo_1.0_all.deb"]) = "/"
    ∧ goJoin ["/out/dists/termux",
        deriveComponent "/in" "extras" (goJoin ["/in", "foo_1.0_all.deb"]), "binary-all"]
      = "/out/dists/termux/binary-all"
    ∧ goJoin ["/out/dists/termux",
        deriveComponent "/in" "extras" (goJoin ["/in", "foo_1.0_all.deb"])]
      = "/out/dists/termux" := by decide

/-- C2: evaluation of the `Release` digest-row paths (`main.go` lines
301-317) for one component with one architecture directory and its content
index (plain and compressed).  The `Packages`/`Packages.xz` rows are relative
to the distribution root, but the content-index rows print the `Contents-*`
glob match verbatim — the full `distributionPath`-prefixed path — which is
not the distribution-root-relative path the claim (and §4.4 of the spec)
requires. -/
theorem C2_contents_rows_carry_full_path :
    releaseHashRows "/out/dists/termux" ["extras"] (fun _ => ["all"]) (fun _ => ["all", "all.xz"])
      = ["extras/binary-all/Packages", "extras/binary-all/Packages.xz",
         "/out/dists/termux/extras/Contents-all", "/out/dists/termux/extras/Contents-all.xz"]
    ∧ specContentsRelPath "extras" "all" = "extras/Contents-all"
    ∧ ("/out/dists/termux/extras/Contents-all" : String) ≠ "extras/Contents-all" := by decide

/-- C3 counterexample: a package file whose control text is readable but
whose `os.Stat` fails in `fileSize` and whose `os.Open` fails in `hashFile`
("cannot be opened or read for size or digest computation").  The claim says
the process must terminate fatally and never write such an entry; instead the
generator returns an entry (no fatal exit) carrying `Size: 0` and an empty
digest for every algorithm. -/
theorem C3_counterexample :
    packagesEntry (fun _ _ => "beef") "termux" "extras" "binary-all" "/x/foo_1.0_all.deb"
        ⟨some "Package: foo\nArchitecture: all", none, false, []⟩
      = some ("Package: foo\nArchitecture: all\nFilename: dists/termux/extras/binary-all/foo_1.0_all.deb\nSize: 0\nMD5Sum: \nSHA1: \nSHA256: \nSHA512: ") := by
  decide

/-- C3 (amended): only a control-extraction failure aborts the `Packages`
pass (second conjunct); a stat failure in the size computation and an open
failure in the digest computation are not fatal — the entry is still written,
with `Size: 0` and an empty digest string for every configured algorithm
(first conjunct). -/
theorem C3_size_and_digest_failures_not_fatal
    (digestHex : String → List Nat → String) (dist comp bp path ctrl : String)
    (f : DebFileState) (hctrl : f.controlText = some ctrl) (hstat : f.statSize = none)
    (hopen : f.openOk = false) :
    packagesEntry digestHex dist comp bp path f
      = some (ctrl ++ "\nFilename: " ++ goJoin ["dists", dist, comp, bp, goBase path]
          ++ "\nSize: " ++ "0" ++ "\nMD5Sum: \nSHA1: \nSHA256: \nSHA512: ")
    ∧ packagesEntry digestHex dist comp bp path ⟨none, f.statSize, f.openOk, f.content⟩
      = none := by
  obtain ⟨fc, fs, fo, fcont⟩ := f
  dsimp only at hctrl hstat hopen
  subst hctrl
  subst hstat
  subst hopen
  refine ⟨?_, rfl⟩
  rw [packagesEntry]
  simp only [Option.map_some']
  have hs : fileSize ⟨some ctrl, none, false, fcont⟩ = 0 := rfl
  rw [hs]
  have ht : (toString (0 : Nat)) = "0" := rfl
  rw [ht]
  congr 1

/-- C3 witness: the amended theorem applied at a concrete file state whose
control text is readable but whose stat and open both fail. -/
theorem C3_witness :
    (⟨some "Package: foo", none, false, []⟩ : DebFileState).controlText = some "Package: foo"
    ∧ packagesEntry (fun _ _ => "d") "termux" "extras" "binary-all" "/x/foo_1.0_all.deb"
        ⟨some "Package: foo", none, false, []⟩
      = some ("Package: foo" ++ "\nFilename: "
          ++ goJoin ["dists", "termux", "extras", "binary-all", goBase "/x/foo_1.0_all.deb"]
          ++ "\nSize: " ++ "0" ++ "\nMD5Sum: \nSHA1: \nSHA256: \nSHA512: ") :=
  ⟨rfl,
   (C3_size_and_digest_failures_not_fatal (fun _ _ => "d") "termux" "extras" "binary-all"
      "/x/foo_1.0_all.deb" "Package: foo" ⟨some "Package: foo", none, false, []⟩
      rfl rfl rfl).1⟩

/-- C4 counterexample: with `--use-hard-links`, a failing `os.Link` (for
example because the destination already exists after a failed component
wipe) while the later operations succeed.  The claim says every I/O failure
during tree building is fatal; instead `addDeb` completes with `ok` — the
link error is discarded — and no file was actually materialized. -/
theorem C4_counterexample :
    (addDeb ⟨some "Package: foo\nArchitecture: all\n", true, true, false, true, true,
        some "./usr/bin/foo\n"⟩
      "/out/dists/termux" "extras" "/in/foo_1.0_all.deb" true).term = ProcOutcome.ok
    ∧ (addDeb ⟨some "Package: foo\nArchitecture: all\n", true, true, false, true, true,
        some "./usr/bin/foo\n"⟩
      "/out/dists/termux" "extras" "/in/foo_1.0_all.deb" true).eff.filesWritten = [] := by
  decide

/-- C4 (amended): for a package that classifies successfully, a `copyFile`
failure is fatal (first conjunct), but a failure of `os.MkdirAll` and a
failure of `os.Link` are silently ignored — with `--use-hard-links` the call
completes with `ok` status even though no directory was created and no file
was materialized (remaining conjuncts). -/
theorem C4_mkdir_and_link_failures_ignored
    (env : AddDebEnv) (dp comp p ctrl pkg a raw : String)
    (hctrl : env.controlText = some ctrl)
    (hp : findCapture "Package: " ctrl = some pkg)
    (ha : findCapture "Architecture: " ctrl = some a)
    (hsup : contains supportedArches a = true)
    (harch : env.archDirExists = false)
    (hmk : env.mkdirOk = false)
    (hlink : env.linkOk = false)
    (hcopy : env.copyOk = false)
    (hopen : env.openContentsOk = true)
    (hdata : env.dataTarOutput = some raw) :
    (addDeb env dp comp p false).term
        = ProcOutcome.exit1 ("Error copying file \x27" ++ p ++ "\x27")
    ∧ (addDeb env dp comp p true).term = ProcOutcome.ok
    ∧ (addDeb env dp comp p true).eff.dirsCreated = []
    ∧ (addDeb env dp comp p true).eff.filesWritten = [] := by
  refine ⟨?_, ?_, ?_, ?_⟩ <;>
    simp [addDeb, contentsAppendStep, hctrl, hp, ha, hsup, harch, hmk, hlink, hcopy,
      hopen, hdata]

/-- C4 witness: the amended theorem applied at a concrete environment in
which directory creation, hard linking and copying all fail while the
content-index steps succeed. -/
theorem C4_witness :
    findCapture "Package: " "Package: foo\nArchitecture: all\n" = some "foo"
    ∧ contains supportedArches "all" = true
    ∧ (addDeb ⟨some "Package: foo\nArchitecture: all\n", false, false, false, false, true,
          some "./usr/bin/foo\n"⟩ "/out/dists/termux" "extras" "/in/foo_1.0_all.deb" false).term
        = ProcOutcome.exit1 ("Error copying file \x27" ++ "/in/foo_1.0_all.deb" ++ "\x27")
    ∧ (addDeb ⟨some "Package: foo\nArchitecture: all\n", false, false, false, false, true,
          some "./usr/bin/foo\n"⟩ "/out/dists/termux" "extras" "/in/foo_1.0_all.deb" true).term
        = ProcOutcome.ok
    ∧ (addDeb ⟨some "Package: foo\nArchitecture: all\n", false, false, false, false, true,
          some "./usr/bin/foo\n"⟩ "/out/dists/termux" "extras" "/in/foo_1.0_all.deb" true).eff.dirsCreated
        = []
    ∧ (addDeb ⟨some "Package: foo\nArchitecture: all\n", false, false, false, false, true,
          some "./usr/bin/foo\n"⟩ "/out/dists/termux" "extras" "/in/foo_1.0_all.deb" true).eff.filesWritten
        = [] := by
  have h := C4_mkdir_and_link_failures_ignored
    ⟨some "Package: foo\nArchitecture: all\n", false, false, false, false, true,
      some "./usr/bin/foo\n"⟩
    "/out/dists/termux" "extras" "/in/foo_1.0_all.deb"
    "Package: foo\nArchitecture: all\n" "foo" "all" "./usr/bin/foo\n"
    rfl (by decide) (by decide) (by decide) rfl rfl rfl rfl rfl rfl
  exact ⟨by decide, by decide, h.1, h.2.1, h.2.2.1, h.2.2.2⟩

/-- C5 counterexample: a package whose extracted control text has no
`Package:` line.  The claim says classification terminates fatally with an
error message reporting the offending file name; instead the `nil` regexp
submatch is indexed and the process dies with an index-out-of-range panic —
no `os.Exit(1)` with a message is reached at all. -/
theorem C5_counterexample :
    (addDeb ⟨some "Architecture: all\n", true, true, true, true, true, some ""⟩
        "/out/dists/termux" "extras" "/in/foo_1.0_all.deb" false).term = ProcOutcome.panicIdx
    ∧ ¬ ∃ msg, (addDeb ⟨some "Architecture: all\n", true, true, true, true, true, some ""⟩
        "/out/dists/termux" "extras" "/in/foo_1.0_all.deb" false).term
          = ProcOutcome.exit1 msg := by
  have h1 : (addDeb ⟨some "Architecture: all\n", true, true, true, true, true, some ""⟩
      "/out/dists/termux" "extras" "/in/foo_1.0_all.deb" false).term = ProcOutcome.panicIdx := by
    decide
  refine ⟨h1, ?_⟩
  rintro ⟨msg, hmsg⟩
  rw [h1] at hmsg
  exact ProcOutcome.noConfusion hmsg

/-- C5 (amended): when the extracted control text has no `Package:` line or
no `Architecture:` line, the process does terminate fatally — but through the
index-out-of-range panic of indexing the `nil` `FindStringSubmatch` result,
which performs no effects and carries no error message naming the offending
file (only the unsupported-architecture path produces such a message). -/
theorem C5_missing_control_field_panics
    (env : AddDebEnv) (dp comp p ctrl : String) (uhl : Bool)
    (hctrl : env.controlText = some ctrl)
    (hmiss : findCapture "Package: " ctrl = none ∨ findCapture "Architecture: " ctrl = none) :
    addDeb env dp comp p uhl = ⟨ProcOutcome.panicIdx, emptyEffects⟩ := by
  rcases hmiss with h | h
  · simp [addDeb, hctrl, h]
  · cases hq : findCapture "Package: " ctrl <;> simp [addDeb, hctrl, h, hq]

/-- C5 witness: the amended theorem applied to a control text with an
`Architecture:` line but no `Package:` line. -/
theorem C5_witness :
    findCapture "Package: " "Architecture: all\n" = none
    ∧ addDeb ⟨some "Architecture: all\n", true, true, true, true, true, some ""⟩
        "/out/dists/termux" "extras" "/in/bar_1.0_all.deb" true
      = ⟨ProcOutcome.panicIdx, emptyEffects⟩ :=
  ⟨by decide,
   C5_missing_control_field_panics
     ⟨some "Architecture: all\n", true, true, true, true, true, some ""⟩
     "/out/dists/termux" "extras" "/in/bar_1.0_all.deb" "Architecture: all\n" true
     rfl (Or.inl (by decide))⟩

/-- C6: evaluation of the `Release` header (`main.go` lines 241-246) for the
configured distribution name `stable`.  Line 241 writes the literal
`Codename: termux` regardless of the `--distribution` value, so the Codename
field does not equal the configured distribution name — even though the same
header does use the distribution for `Suite` (third conjunct), making the
hardcoded Codename an inconsistency within the header itself. -/
theorem C6_codename_is_hardcoded :
    "Codename: termux" ∈ releaseHeader "stable" "Sat, 11 Oct 2025 00:00:00 UTC" ["aarch64"]
    ∧ "Codename: stable" ∉ releaseHeader "stable" "Sat, 11 Oct 2025 00:00:00 UTC" ["aarch64"]
    ∧ "Suite: stable" ∈ releaseHeader "stable" "Sat, 11 Oct 2025 00:00:00 UTC" ["aarch64"] := by
  decide

/-- C7 counterexample: with signing requested, the program's entire output
from the signing step to the end is identical whether the signer fails or
succeeds (the `Run()` error is discarded and the child's stderr is not
connected), so no failure is logged to the user; the run does complete (the
`Done!` message is reached). -/
theorem C7_counterexample :
    signAndFinish true false "termux" "/out" ["extras"]
      = signAndFinish true true "termux" "/out" ["extras"]
    ∧ "Done!" ∈ signAndFinish true false "termux" "/out" ["extras"] := by
  exact ⟨rfl, by decide⟩

/-- C7 (amended): when signing is requested and the external signer fails,
the run still completes successfully (non-fatal, `Done!` is printed), but the
failure is entirely silent: the program's output is the same as on signer
success, so nothing is logged to the user. -/
theorem C7_signing_failure_is_silent (distribution outputPath : String)
    (components : List String) :
    signAndFinish true false distribution outputPath components
      = signAndFinish true true distribution outputPath components
    ∧ "Done!" ∈ signAndFinish true false distribution outputPath components := by
  refine ⟨rfl, ?_⟩
  simp [signAndFinish]

/-- C7 witness: the amended theorem at a concrete distribution, output path
and component list. -/
theorem C7_witness :
    signAndFinish true false "mydist" "/srv/repo" ["main", "extras"]
      = signAndFinish true true "mydist" "/srv/repo" ["main", "extras"]
    ∧ "Done!" ∈ signAndFinish true false "mydist" "/srv/repo" ["main", "extras"] :=
  C7_signing_failure_is_silent "mydist" "/srv/repo" ["main", "extras"]

/-- C8: a package whose control `Architecture:` value is not in the supported
set `{all, arm, aarch64}` makes `addDeb` exit via `os.Exit(1)` (a non-zero
exit) with the unsupported-arch message, before any directory is created, any
file is materialized, or any content-index row is appended — the effects are
empty, so no file for that package reaches any component directory. -/
theorem C8_unsupported_arch_exits_before_any_write
    (env : AddDebEnv) (dp comp p ctrl pkg a : String) (uhl : Bool)
    (hctrl : env.controlText = some ctrl)
    (hp : findCapture "Package: " ctrl = some pkg)
    (ha : findCapture "Architecture: " ctrl = some a)
    (hsup : contains supportedArches a = false) :
    addDeb env dp comp p uhl
      = ⟨ProcOutcome.exit1
           ("Unsupported arch \x27" ++ a ++ "\x27 in \x27" ++ goBase p ++ "\x27"),
         emptyEffects⟩ := by
  simp [addDeb, hctrl, hp, ha, hsup]

/-- C8 witness: the theorem applied to a package declaring architecture
`mips`. -/
theorem C8_witness :
    findCapture "Package: " "Package: foo\nArchitecture: mips\n" = some "foo"
    ∧ findCapture "Architecture: " "Package: foo\nArchitecture: mips\n" = some "mips"
    ∧ contains supportedArches "mips" = false
    ∧ addDeb ⟨some "Package: foo\nArchitecture: mips\n", false, true, true, true, true, some ""⟩
        "/out/dists/termux" "extras" "/in/foo_1.0_mips.deb" false
      = ⟨ProcOutcome.exit1
           ("Unsupported arch \x27" ++ "mips" ++ "\x27 in \x27"
             ++ goBase "/in/foo_1.0_mips.deb" ++ "\x27"),
         emptyEffects⟩ :=
  ⟨by decide, by decide, by decide,
   C8_unsupported_arch_exits_before_any_write
     ⟨some "Package: foo\nArchitecture: mips\n", false, true, true, true, true, some ""⟩
     "/out/dists/termux" "extras" "/in/foo_1.0_mips.deb"
     "Package: foo\nArchitecture: mips\n" "foo" "mips" false
     rfl (by decide) (by decide) (by decide)⟩

/-- C9: along any run whose discovered packages split as `xs ++ p :: ys`
where `p` is the first package of its component and that component's
directory pre-exists, the removal trace of the registration loop gains the
component's removal exactly when `p` is processed (first conjunct), and over
the entire run that component is removed exactly once — later packages of the
same component (in `ys`) never trigger another removal (second conjunct). -/
theorem C9_component_removed_exactly_once
    (ed : String → Bool) (dp ip dc : String) (xs ys : List String) (p : String)
    (hfirst : deriveComponent ip dc p ∉ xs.map (deriveComponent ip dc))
    (hex : ed (goJoin [dp, deriveComponent ip dc p]) = true) :
    (runSee ed dp ip dc (xs ++ [p])).removedEvents
      = (runSee ed dp ip dc xs).removedEvents ++ [deriveComponent ip dc p]
    ∧ List.count (deriveComponent ip dc p)
        (runSee ed dp ip dc (xs ++ p :: ys)).removedEvents = 1 := by
  have hnotin : deriveComponent ip dc p
      ∉ (runSeeFrom ed dp ip dc ⟨[], []⟩ xs).components := by
    rw [mem_runSeeFrom]
    simpa using hfirst
  constructor
  · rw [runSee, runSee, runSeeFrom_append, runSeeFrom_cons, runSeeFrom_nil]
    unfold seeComponent
    rw [if_neg (fun h => hnotin ((contains_iff _ _).mp h))]
    simp [hex]
  · have inv := runSeeFrom_inv ed dp ip dc (xs ++ p :: ys) ⟨[], []⟩ (by simp) (by simp)
    have hmem : deriveComponent ip dc p
        ∈ (runSeeFrom ed dp ip dc ⟨[], []⟩ (xs ++ p :: ys)).components := by
      rw [mem_runSeeFrom]
      right
      simp
    rw [runSee, inv.2]
    exact List.count_eq_one_of_mem (inv.1.filter _) (List.mem_filter.mpr ⟨hmem, hex⟩)

/-- C9 witness: the theorem over a run with one `extras` package, then two
`main` packages, where the `main` directory pre-exists: the removal fires on
the first `main` package and happens exactly once over the whole run. -/
theorem C9_witness :
    deriveComponent "/in/" "extras" "/in/main/b.deb"
        ∉ ["/in/a.deb"].map (deriveComponent "/in/" "extras")
    ∧ (runSee (fun s => s == "/out/dists/termux/main") "/out/dists/termux" "/in/" "extras"
        (["/in/a.deb"] ++ ["/in/main/b.deb"])).removedEvents
      = (runSee (fun s => s == "/out/dists/termux/main") "/out/dists/termux" "/in/" "extras"
          ["/in/a.deb"]).removedEvents ++ [deriveComponent "/in/" "extras" "/in/main/b.deb"]
    ∧ List.count (deriveComponent "/in/" "extras" "/in/main/b.deb")
        (runSee (fun s => s == "/out/dists/termux/main") "/out/dists/termux" "/in/" "extras"
          (["/in/a.deb"] ++ "/in/main/b.deb" :: ["/in/main/c.deb"])).removedEvents = 1 := by
  have h := C9_component_removed_exactly_once
    (fun s => s == "/out/dists/termux/main") "/out/dists/termux" "/in/" "extras"
    ["/in/a.deb"] ["/in/main/c.deb"] "/in/main/b.deb" (by decide) (by decide)
  exact ⟨by decide, h.1, h.2⟩

/-- C10: in one loop iteration (`main.go` lines 219-230) on the first package
of a component whose directory pre-exists, the `os.RemoveAll` of that
directory is recorded in the state returned by the iteration even when the
package then fails classification (missing control field or unsupported
architecture) and the process terminates — the deletion happens at lines
224-229, before `addDeb` classifies the package at line 230, so the abort
does not leave the component's prior on-disk state intact. -/
theorem C10_removal_precedes_classification
    (ed : String → Bool) (dp ip dc : String) (uhl : Bool) (env : AddDebEnv)
    (st : RunState) (p ctrl : String)
    (hctrl : env.controlText = some ctrl)
    (hfail : findCapture "Package: " ctrl = none ∨ findCapture "Architecture: " ctrl = none
      ∨ ∃ a, findCapture "Architecture: " ctrl = some a ∧ contains supportedArches a = false)
    (hfirst : contains st.components (deriveComponent ip dc p) = false)
    (hex : ed (goJoin [dp, deriveComponent ip dc p]) = true) :
    (processPackage ed dp ip dc uhl env st p).1.removedEvents
      = st.removedEvents ++ [deriveComponent ip dc p]
    ∧ (processPackage ed dp ip dc uhl env st p).2.term ≠ ProcOutcome.ok := by
  constructor
  · unfold processPackage seeComponent
    simp [hfirst, hex]
  · unfold processPackage
    dsimp only
    rcases hfail with h | h | ⟨a, ha, hsup⟩
    · simp [addDeb, hctrl, h]
    · cases hq : findCapture "Package: " ctrl <;> simp [addDeb, hctrl, h, hq]
    · cases hq : findCapture "Package: " ctrl
      · simp [addDeb, hctrl, hq]
      · simp [addDeb, hctrl, hq, ha, hsup]

/-- C10 witness: the theorem at a first-sight `main` package with a
pre-existing `main` directory and a control text with no `Package:` line:
the returned state already records the removal while the `addDeb` outcome is
fatal. -/
theorem C10_witness :
    (⟨some "Name: x\n", false, true, true, true, true, some ""⟩ : AddDebEnv).controlText
        = some "Name: x\n"
    ∧ findCapture "Package: " "Name: x\n" = none
    ∧ (processPackage (fun s => s == "/out/dists/termux/main") "/out/dists/termux" "/in/"
          "extras" false ⟨some "Name: x\n", false, true, true, true, true, some ""⟩
          ⟨[], []⟩ "/in/main/b.deb").1.removedEvents
        = (⟨[], []⟩ : RunState).removedEvents ++ [deriveComponent "/in/" "extras" "/in/main/b.deb"]
    ∧ (processPackage (fun s => s == "/out/dists/termux/main") "/out/dists/termux" "/in/"
          "extras" false ⟨some "Name: x\n", false, true, true, true, true, some ""⟩
          ⟨[], []⟩ "/in/main/b.deb").2.term ≠ ProcOutcome.ok := by
  have h := C10_removal_precedes_classification
    (fun s => s == "/out/dists/termux/main") "/out/dists/termux" "/in/" "extras" false
    ⟨some "Name: x\n", false, true, true, true, true, some ""⟩ ⟨[], []⟩
    "/in/main/b.deb" "Name: x\n" rfl (Or.inl (by decide)) (by decide) (by decide)
  exact ⟨rfl, by decide, h.1, h.2⟩

end AptRepo
